import Mathlib

/-!
Verification development for the DA price-index scraper's text-to-structure
parser (`main.py`).  The Python code is shallowly embedded: strings are
`List Char`, the handful of regular expressions the parser uses are embedded
through a small backtracking matcher whose preference order mirrors Python's
`re` module (leftmost start, alternation left to right, greedy/lazy
quantifiers), and the stateful line loop becomes an explicit fold over the
line list.  Unicode-dependent Python behaviour (`str.upper`, `\w`) is
modelled on the ASCII subset, which is the alphabet the parser's keyword
tables use.
-/

namespace DPI

/-- Code points Python's `str.split()` / `re` `\s` treat as whitespace
(ASCII whitespace, the C0 separators, NEL, NBSP and the Unicode space
category). -/
def isPySpace (c : Char) : Bool :=
  let n := c.toNat
  (0x09 ≤ n && n ≤ 0x0D) || (0x1C ≤ n && n ≤ 0x1F) || n = 0x20 ||
  n = 0x85 || n = 0xA0 || n = 0x1680 || (0x2000 ≤ n && n ≤ 0x200A) ||
  n = 0x2028 || n = 0x2029 || n = 0x202F || n = 0x205F || n = 0x3000

/-- C0 and C1 control code points, the class removed by
`re.sub(r'[\x00-\x1F\x7F-\x9F]', '', text)` in `normalize_commodity_name`. -/
def isCtrl (c : Char) : Bool :=
  let n := c.toNat
  n ≤ 0x1F || (0x7F ≤ n && n ≤ 0x9F)

/-- ASCII decimal digit, modelling `\d`. -/
def isDigitC (c : Char) : Bool := '0' ≤ c && c ≤ '9'

/-- Word character for `\b`, modelling `\w` on the ASCII subset. -/
def isWordChar (c : Char) : Bool :=
  ('a' ≤ c && c ≤ 'z') || ('A' ≤ c && c ≤ 'Z') || isDigitC c || c = '_'

/-- `str.upper` on the ASCII subset. -/
def upperL (l : List Char) : List Char := l.map Char.toUpper

/-- Does `n` occur as a prefix of `h`? (case sensitive). -/
def startsWithL : List Char → List Char → Bool
  | [], _ => true
  | _ :: _, [] => false
  | a :: n, b :: h => a == b && startsWithL n h

/-- Python's `in` on strings: `n` occurs as a contiguous substring of `h`. -/
def isSubL (n : List Char) : List Char → Bool
  | [] => n == []
  | c :: t => startsWithL n (c :: t) || isSubL n t

/-- Substring test on `String`s (`needle in hay` in Python). -/
def containsL (hay needle : String) : Bool := isSubL needle.toList hay.toList

/-- `str.strip()` (both ends, Python whitespace). -/
def pyStripL (l : List Char) : List Char :=
  ((l.dropWhile isPySpace).reverse.dropWhile isPySpace).reverse

/-- `str.strip(chars)` for an explicit character set. -/
def pyStripCharsL (cs : List Char) (l : List Char) : List Char :=
  ((l.dropWhile (· ∈ cs)).reverse.dropWhile (· ∈ cs)).reverse

/-- The nonempty maximal runs of non-whitespace characters: `str.split()`.
A non-space character starts a new word when it is at the end or followed
by a space, and otherwise extends the word that starts at the next
character. -/
def wordsL : List Char → List (List Char)
  | [] => []
  | c :: cs =>
    if isPySpace c then wordsL cs
    else
      match cs, wordsL cs with
      | [], _ => [[c]]
      | d :: _, rest =>
        if isPySpace d then [c] :: rest
        else
          match rest with
          | [] => [[c]]
          | w :: ws => (c :: w) :: ws

/-- `" ".join(words)`. -/
def joinWords : List (List Char) → List Char
  | [] => []
  | [w] => w
  | w :: x :: xs => w ++ ' ' :: joinWords (x :: xs)

/-- `" ".join(text.split())`: collapse whitespace runs to single spaces and
trim the ends. -/
def collapseJoin (l : List Char) : List Char :=
  joinWords (wordsL l)

/-- The text sanitizer from `normalize_commodity_name` lines 147–148:
remove C0/C1 control characters, then collapse whitespace. -/
def sanitizeL (l : List Char) : List Char :=
  collapseJoin (l.filter (fun c => !isCtrl c))

/-- String-level sanitizer. -/
def sanitize (s : String) : String := ⟨sanitizeL s.toList⟩

/-! ### A small regex engine

The parser uses a dozen `re` patterns.  They are embedded through an
explicit pattern type and a backtracking matcher that enumerates the
possible match ends in exactly Python's preference order: alternation left
to right, greedy quantifiers longest first, lazy quantifiers shortest
first, scan positions left to right.  The matcher tracks the previous
character so `\b` can be evaluated.  `star` carries fuel; every starred
sub-pattern below consumes at least one character per iteration, so fuel
`length + 1` never runs out. -/

inductive RE where
  | eps
  | eos
  | lit (ci : Bool) (cs : List Char)
  | cls (p : Char → Bool)
  | seq (a b : RE)
  | alt (a b : RE)
  | opt (greedy : Bool) (a : RE)
  | star (greedy : Bool) (a : RE)
  | bnd

/-- Character comparison, optionally case-insensitive (`re.IGNORECASE`,
ASCII model). -/
def eqChar (ci : Bool) (a b : Char) : Bool :=
  if ci then a.toUpper == b.toUpper else a == b

/-- Match a literal sequence, returning the last consumed character and the
remaining input. -/
def litRun (ci : Bool) : List Char → Option Char → List Char →
    Option (Option Char × List Char)
  | [], prev, s => some (prev, s)
  | c :: cs, _, x :: t => if eqChar ci c x then litRun ci cs (some x) t else none
  | _ :: _, _, [] => none

/-- One layer of the matcher, structurally recursive on the pattern.
`lower` continues a `star` after one iteration, at one unit less fuel. -/
def runAux (lower : RE → Option Char → List Char →
    List (Option Char × List Char)) :
    RE → Option Char → List Char → List (Option Char × List Char)
  | .eps, prev, s => [(prev, s)]
  | .eos, prev, s => if s.isEmpty then [(prev, s)] else []
  | .lit ci cs, prev, s => (litRun ci cs prev s).toList
  | .cls _, _, [] => []
  | .cls p, _, x :: t => if p x then [(some x, t)] else []
  | .bnd, prev, s =>
    let a := match prev with | some c => isWordChar c | none => false
    let b := match s with | x :: _ => isWordChar x | [] => false
    if a ≠ b then [(prev, s)] else []
  | .seq a b, prev, s =>
    (runAux lower a prev s).flatMap (fun pr => runAux lower b pr.1 pr.2)
  | .alt a b, prev, s => runAux lower a prev s ++ runAux lower b prev s
  | .opt g a, prev, s =>
    if g then runAux lower a prev s ++ [(prev, s)]
    else (prev, s) :: runAux lower a prev s
  | .star g a, prev, s =>
    let cont := (runAux lower a prev s).flatMap
      (fun pr => lower (.star g a) pr.1 pr.2)
    if g then cont ++ [(prev, s)] else (prev, s) :: cont

/-- All ways a pattern can match a prefix of `s`, in Python's backtracking
preference order: each result is (last consumed char, remaining input).
A starred sub-pattern may iterate at most `fuel` times; every star below
consumes at least one character per iteration, so the wrappers' fuel of
`length + 1` is never exhausted. -/
def run : Nat → RE → Option Char → List Char → List (Option Char × List Char)
  | 0 => runAux (fun _ _ _ => [])
  | fuel + 1 => runAux (run fuel)

/-- Python's first (preferred) match of the pattern at the current
position. -/
def matchEnd (fuel : Nat) (r : RE) (prev : Option Char) (s : List Char) :
    Option (Option Char × List Char) :=
  (run fuel r prev s).head?

/-- `re.search` scan: leftmost position with a match; returns
(text before the match, matched span, text after the match).  `rfuel` is
the matcher's star fuel; the structural `sfuel` bounds the scan. -/
def searchAux (rfuel : Nat) (r : RE) :
    Nat → Option Char → List Char → List Char →
    Option (List Char × List Char × List Char)
  | 0, _, _, _ => none
  | _ + 1, prev, acc, [] =>
    match matchEnd rfuel r prev [] with
    | some _ => some (acc.reverse, [], [])
    | none => none
  | sfuel + 1, prev, acc, c :: t =>
    match matchEnd rfuel r prev (c :: t) with
    | some (_, s') =>
      some (acc.reverse, (c :: t).take ((c :: t).length - s'.length), s')
    | none => searchAux rfuel r sfuel (some c) (c :: acc) t

def reSearch (r : RE) (s : List Char) :
    Option (List Char × List Char × List Char) :=
  searchAux (s.length + 1) r (s.length + 1) none [] s

/-- The matched span of the leftmost match (`group(0)`). -/
def reSearchSpan (r : RE) (s : List Char) : Option (List Char) :=
  (reSearch r s).map (fun x => x.2.1)

/-- Does the pattern occur anywhere (`re.search` as a test)? -/
def reTest (r : RE) (s : List Char) : Bool := (reSearch r s).isSome

/-- `re.sub(pattern, repl, s)`: replace every non-overlapping leftmost
match. -/
def subAllAux (rfuel : Nat) (r : RE) (repl : List Char) :
    Nat → Option Char → List Char → List Char
  | 0, _, s => s
  | _ + 1, prev, [] =>
    (match matchEnd rfuel r prev [] with
     | some _ => repl
     | none => [])
  | sfuel + 1, prev, c :: t =>
    match matchEnd rfuel r prev (c :: t) with
    | some (p', s') =>
      if s'.length < (c :: t).length then
        repl ++ subAllAux rfuel r repl sfuel p' s'
      else c :: subAllAux rfuel r repl sfuel (some c) t
    | none => c :: subAllAux rfuel r repl sfuel (some c) t

def reSubAll (r : RE) (repl : List Char) (s : List Char) : List Char :=
  subAllAux (s.length + 1) r repl (s.length + 1) none s

/-- `re.split(pattern, s)`: the pieces between non-overlapping leftmost
matches (empty pieces included, as in Python). -/
def splitAux (rfuel : Nat) (r : RE) :
    Nat → Option Char → List Char → List Char → List (List Char)
  | 0, _, cur, s => [cur.reverse ++ s]
  | _ + 1, _, cur, [] => [cur.reverse]
  | sfuel + 1, prev, cur, c :: t =>
    match matchEnd rfuel r prev (c :: t) with
    | some (p', s') =>
      if s'.length < (c :: t).length then
        cur.reverse :: splitAux rfuel r sfuel p' [] s'
      else splitAux rfuel r sfuel (some c) (c :: cur) t
    | none => splitAux rfuel r sfuel (some c) (c :: cur) t

def reSplit (r : RE) (s : List Char) : List (List Char) :=
  splitAux (s.length + 1) r (s.length + 1) none [] s

/-! Pattern building helpers. -/

def rlit (s : String) : RE := .lit false s.toList
def rlitCI (s : String) : RE := .lit true s.toList
def reFail : RE := .cls (fun _ => false)
def ralt (l : List RE) : RE := l.foldr .alt reFail
def rseq (l : List RE) : RE := l.foldr .seq .eps
def rplus (g : Bool) (r : RE) : RE := .seq r (.star g r)
def wsStar : RE := .star true (.cls isPySpace)
def wsPlus : RE := rplus true (.cls isPySpace)
def digPlus : RE := rplus true (.cls isDigitC)
def digStar : RE := .star true (.cls isDigitC)

/-! ### The concrete patterns of `main.py` -/

/-- `Page\s+\d+\s+of\s+\d+` (IGNORECASE). -/
def pageRe : RE :=
  rseq [rlitCI "Page", wsPlus, digPlus, wsPlus, rlitCI "of", wsPlus, digPlus]

/-- The price-token alternative `\d{1,3}(?:,\d{3})*\.\d{2}` (greedy
`{1,3}` tries three digits first). -/
def numTokRe : RE :=
  let d : RE := .cls isDigitC
  rseq [ralt [rseq [d, d, d], rseq [d, d], d],
        .star true (rseq [rlit ",", d, d, d]),
        rlit ".", d, d]

/-- `\s+(\d{1,3}(?:,\d{3})*\.\d{2}|n/a)\s*$` — the trailing-price search of
line 560.  `$`/`\Z` is the `eos` node (the parser applies it to a stripped
line). -/
def priceRe : RE :=
  rseq [wsPlus, ralt [numTokRe, rlit "n/a"], wsStar, .eos]

/-- `(?:PREVAILING\s+)?(?:RETAIL\s+)?PRICE\s+PER(?:\s+UNIT)?` (IGNORECASE),
line 597. -/
def phraseRe : RE :=
  rseq [.opt true (rseq [rlitCI "PREVAILING", wsPlus]),
        .opt true (rseq [rlitCI "RETAIL", wsPlus]),
        rlitCI "PRICE", wsPlus, rlitCI "PER",
        .opt true (rseq [wsPlus, rlitCI "UNIT"])]

/-- `\b(PREVAILING|RETAIL|PRICE|PER|UNIT|COMMODITY|SPECIFICATION|PAGE|DEPARTMENT|COVERED|MARKETS|OF|P/UNIT)\b\s*`
(IGNORECASE), line 613. -/
def bigWordRe : RE :=
  rseq [.bnd,
        ralt [rlitCI "PREVAILING", rlitCI "RETAIL", rlitCI "PRICE",
              rlitCI "PER", rlitCI "UNIT", rlitCI "COMMODITY",
              rlitCI "SPECIFICATION", rlitCI "PAGE", rlitCI "DEPARTMENT",
              rlitCI "COVERED", rlitCI "MARKETS", rlitCI "OF",
              rlitCI "P/UNIT"],
        .bnd, wsStar]

/-- `,?\s*\b(Local|Imported)\b` (IGNORECASE), line 646. -/
def originRe : RE :=
  rseq [.opt true (rlit ","), wsStar, .bnd,
        ralt [rlitCI "Local", rlitCI "Imported"], .bnd]

/-- `\s+` used by the whitespace-collapsing substitutions. -/
def wsPlusRe : RE := wsPlus

/-- `\s*\d+\.\s*`, the numeric list markers the covered-markets block is
split on (line 510). -/
def marketSplitRe : RE := rseq [wsStar, digPlus, rlit ".", wsStar]

/-- `(Large|Medium|Small).*?(\d+-?\d*\s*pcs?/?kg)?` (IGNORECASE), the fish
size capture of line 194.  The lazy dot-star never expands: the pattern can
always complete right after the size word, with the optional numeric tail
taken greedily when it matches there. -/
def fishSizeRe : RE :=
  rseq [ralt [rlitCI "Large", rlitCI "Medium", rlitCI "Small"],
        .star false (.cls (fun c => c != '\n')),
        .opt true (rseq [digPlus, .opt true (rlit "-"), digStar, wsStar,
                         rlitCI "pc", .opt true (rlitCI "s"),
                         .opt true (rlit "/"), rlitCI "kg"])]

/-- `\b(Large|Medium|Small|Lean|Boneless|with Bones)\b` (IGNORECASE), beef
size capture and removal (lines 230, 265). -/
def beefSizeRe : RE :=
  rseq [.bnd,
        ralt [rlitCI "Large", rlitCI "Medium", rlitCI "Small", rlitCI "Lean",
              rlitCI "Boneless", rlitCI "with Bones"],
        .bnd]

/-- `\b(Local|Imported|Liempo|Kasim)\b` (IGNORECASE), line 273. -/
def porkSubRe : RE :=
  rseq [.bnd,
        ralt [rlitCI "Local", rlitCI "Imported", rlitCI "Liempo",
              rlitCI "Kasim"],
        .bnd]

/-- `\b(Magnolia|Bounty Fresh|Unbranded|Fresh|Fully Dressed)\b`
(IGNORECASE), line 293. -/
def poultrySubRe : RE :=
  rseq [.bnd,
        ralt [rlitCI "Magnolia", rlitCI "Bounty Fresh", rlitCI "Unbranded",
              rlitCI "Fresh", rlitCI "Fully Dressed"],
        .bnd]

/-- The vegetable size/bundle pattern of lines 308–312 / 317–322
(IGNORECASE): an optional size word, optional parenthesis, a digit range,
a small unit (cm, g, gm, pcs), an optional dash-or-slash second quantity,
and an optional trailing descriptor (diameter, bunch hd, head, pcs/kg),
with an optional closing parenthesis. -/
def vegSpecRe : RE :=
  rseq [.opt true (ralt [rlitCI "Medium", rlitCI "Large", rlitCI "Small"]),
        wsStar,
        .opt true (rlit "("),
        digPlus,
        .opt true (rlit "-"),
        digStar,
        wsStar,
        ralt [rlitCI "cm", rseq [rlitCI "g", .opt true (rlitCI "m")],
              rlitCI "g", rlitCI "pcs"],
        .opt true (rseq [wsStar, .cls (fun c => c == '-' || c == '/'),
                         wsStar, digPlus, wsStar,
                         ralt [rlitCI "kg", rlitCI "cm", rlitCI "g",
                               rlitCI "gm"]]),
        wsStar,
        .opt true (ralt [rlitCI "diameter", rlitCI "bunch hd",
                         rlitCI "head", rlitCI "pcs/kg"]),
        .opt true (rlit ")")]

/-- `\b(Local|Imported|Native|Suprema Variety|Medium|Large|Small)\b`
(IGNORECASE), line 323. -/
def vegNoiseRe : RE :=
  rseq [.bnd,
        ralt [rlitCI "Local", rlitCI "Imported", rlitCI "Native",
              rlitCI "Suprema Variety", rlitCI "Medium", rlitCI "Large",
              rlitCI "Small"],
        .bnd]

/-- `\(\s*\)`, line 326. -/
def vegParenRe : RE := rseq [rlit "(", wsStar, rlit ")"]

/-- `(Ripe|Green|Solo|\d+-\d+\s*pcs/kg)` (IGNORECASE), the fruit spec
search of line 413 (no word boundaries). -/
def fruitAltsRe : RE :=
  ralt [rlitCI "Ripe", rlitCI "Green", rlitCI "Solo",
        rseq [digPlus, rlit "-", digPlus, wsStar, rlitCI "pcs/kg"]]

/-- `\b(Ripe|Green|Solo|\d+-\d+\s*pcs/kg)\b` (IGNORECASE), the fruit
removal of line 417 (with word boundaries). -/
def fruitSubRe : RE := rseq [.bnd, fruitAltsRe, .bnd]

/-- `\b(Local|Imported|Fresh|Frozen|Chilled|Whole Round|Native)\b`
(IGNORECASE), fallback noise removal of line 476. -/
def fallbackNoiseRe : RE :=
  rseq [.bnd,
        ralt [rlitCI "Local", rlitCI "Imported", rlitCI "Fresh",
              rlitCI "Frozen", rlitCI "Chilled", rlitCI "Whole Round",
              rlitCI "Native"],
        .bnd]

/-- `\d+[-]?\d*\s*(?:pcs?/?kg|grams?|cm|ml|L)` (IGNORECASE), fallback
unit-token removal of line 477. -/
def fallbackUnitRe : RE :=
  rseq [digPlus, .opt true (rlit "-"), digStar, wsStar,
        ralt [rseq [rlitCI "pc", .opt true (rlitCI "s"),
                    .opt true (rlit "/"), rlitCI "kg"],
              rseq [rlitCI "gram", .opt true (rlitCI "s")],
              rlitCI "cm", rlitCI "ml", rlitCI "L"]]

/-! ### Unit extraction (`extract_unit_from_spec`, lines 112–135) -/

/-- Python `needle in hay` where `hay` is a character list. -/
def hasSub (needle : String) (hay : List Char) : Bool :=
  isSubL needle.toList hay

/-- `extract_unit_from_spec(spec_text, commodity_name)`. -/
def extract_unit_from_spec (spec_text commodity_name : String) : String :=
  let us := upperL spec_text.toList
  let un := upperL commodity_name.toList
  if hasSub "EGG" un && hasSub "CHICKEN" un then "pc"
  else if hasSub "COOKING OIL" un then
    if hasSub "350" us && hasSub "ML" us then "350 ml"
    else if hasSub "500" us && hasSub "ML" us then "500 ml"
    else if hasSub "1" us && (hasSub "LITER" us || hasSub "L" us) then "1 L"
    else "L"
  else "kg"

/-! ### Commodity normalization (`normalize_commodity_name`, lines 141–480)

Each category section of the Python if-chain becomes one function.  A
section that can fall through to the next section returns `Option`; a
section that always returns is total.  `firstSomeD` reproduces the
sequential fall-through of the Python code. -/

def firstSomeD {α : Type} : List (Option α) → α → α
  | [], d => d
  | some x :: _, _ => x
  | none :: t, d => firstSomeD t d

/-- A guarded section: consulted only when its category keyword occurs. -/
def optIf {α : Type} (c : Bool) (o : Option α) : Option α :=
  if c then o else none

def stripCommaSp (l : List Char) : List Char := pyStripCharsL [',', ' '] l

def stripCommaSpParen (l : List Char) : List Char :=
  pyStripCharsL [',', ' ', '(', ')'] l

/-- Rice section, lines 156–170. -/
def riceRules (u : List Char) : Option (String × Option String) :=
  if hasSub "BASMATI" u then some ("Basmati Rice", none)
  else if hasSub "GLUTINOUS" u then some ("Glutinous Rice", none)
  else if hasSub "JASPONICA" u || hasSub "JAPONICA" u then
    some ("Jasponica Rice", none)
  else if hasSub "SPECIAL" u && hasSub "WHITE" u then
    some ("Special White Rice", none)
  else if hasSub "PREMIUM" u then some ("Premium Rice", some "5% broken")
  else if hasSub "WELL MILLED" u then
    some ("Well Milled Rice", some "1-19% bran streak")
  else if hasSub "REGULAR MILLED" u then
    some ("Regular Milled Rice", some "20-40% bran streak")
  else none

/-- Corn section, lines 175–187. -/
def cornRules (u : List Char) : Option (String × Option String) :=
  if hasSub "WHITE" u && hasSub "COB" u then
    some ("Corn White", some "Cob, Glutinous")
  else if hasSub "YELLOW" u && hasSub "COB" u then
    some ("Corn Yellow", some "Cob, Sweet")
  else if hasSub "GRITS" u && hasSub "WHITE" u && hasSub "FOOD" u then
    some ("Corn Grits White", some "Food Grade")
  else if hasSub "GRITS" u && hasSub "YELLOW" u && hasSub "FOOD" u then
    some ("Corn Grits Yellow", some "Food Grade")
  else if hasSub "CRACKED" u then some ("Corn Cracked", some "Feed Grade")
  else if hasSub "GRITS" u && hasSub "FEED" u then
    some ("Corn Grits", some "Feed Grade")
  else none

/-- Fish section, lines 192–223.  In the source, `A or B and C` parses as
`A or (B and C)`, and the Bangus branch falls through when neither LARGE
nor MEDIUM is present. -/
def fishRules (text u : List Char) : Option (String × Option String) :=
  let size_spec : Option String :=
    (reSearchSpan fishSizeRe text).map (fun sp => (⟨sp⟩ : String))
  if hasSub "ALUMAHAN" u || (hasSub "MACKEREL" u && hasSub "INDIAN" u) then
    some ("Alumahan (Indian Mackerel)", size_spec)
  else if hasSub "BANGUS" u && hasSub "LARGE" u then
    some ("Bangus Large", size_spec)
  else if hasSub "BANGUS" u && hasSub "MEDIUM" u then
    some ("Bangus Medium", size_spec)
  else if hasSub "BONITO" u then some ("Bonito (Frigate Tuna)", size_spec)
  else if hasSub "GALUNGGONG" u then
    some ("Galunggong", some "Medium (12-14 pcs/kg)")
  else if hasSub "MACKEREL" u && !hasSub "INDIAN" u then
    some ("Mackerel", none)
  else if hasSub "PAMPANO" u then some ("Pampano", none)
  else if hasSub "SALMON BELLY" u then some ("Salmon Belly", none)
  else if hasSub "SALMON HEAD" u then some ("Salmon Head", none)
  else if hasSub "SARDINES" u || hasSub "TAMBAN" u then
    some ("Sardines (Tamban)", none)
  else if hasSub "SQUID" u || hasSub "PUSIT" u then some ("Squid", size_spec)
  else if hasSub "TAMBAKOL" u || hasSub "YELLOW-FIN" u then
    some ("Tambakol (Yellow-Fin Tuna)", some "Medium")
  else if hasSub "TILAPIA" u then some ("Tilapia", some "Medium (5-6 pcs/kg)")
  else none

/-- Beef section, lines 228–267 (always returns: its fallback is inside). -/
def beefRules (text u : List Char) : String × Option String :=
  let size_spec : Option String :=
    (reSearchSpan beefSizeRe text).map (fun sp => (⟨sp⟩ : String))
  if hasSub "TENDERLOIN" u then ("Beef Tenderloin", size_spec)
  else if hasSub "STRIP" u && hasSub "LOIN" u then ("Beef Striploin", size_spec)
  else if hasSub "SIRLOIN" u then ("Beef Sirloin", size_spec)
  else if hasSub "SHORT RIB" u then ("Beef Short Ribs", size_spec)
  else if hasSub "RIB EYE" u then ("Beef Rib Eye", size_spec)
  else if hasSub "RIB SET" u then ("Beef Rib Set", size_spec)
  else if hasSub "RIB" u then ("Beef Ribs", size_spec)
  else if hasSub "RUMP" u then ("Beef Rump", size_spec)
  else if hasSub "ROUND" u then ("Beef Round", size_spec)
  else if hasSub "LOIN" u then ("Beef Loin", size_spec)
  else if hasSub "PLATE" u then ("Beef Plate", size_spec)
  else if hasSub "CHUCK" u then ("Beef Chuck", size_spec)
  else if hasSub "BRISKET" u then ("Beef Brisket", size_spec)
  else if hasSub "SHANK" u then ("Beef Shank", size_spec)
  else
    let base := stripCommaSp (reSubAll beefSizeRe [] text)
    (if 2 < base.length then (⟨base⟩ : String) else "Beef", size_spec)

/-- Pork section, lines 271–280 (always returns). -/
def porkRules (text u : List Char) : String × Option String :=
  let base := reSubAll porkSubRe [] text
  if hasSub "BELLY" u then ("Pork Belly (Liempo)", none)
  else if hasSub "PICNIC SHOULDER" u then
    ("Pork Picnic Shoulder (Kasim)", none)
  else ((⟨stripCommaSp base⟩ : String), none)

/-- Poultry section, lines 282–300 (always returns). -/
def poultryRules (text u : List Char) : String × Option String :=
  let brand : Option String :=
    if hasSub "MAGNOLIA" u then some "Magnolia"
    else if hasSub "BOUNTY FRESH" u then some "Bounty Fresh"
    else if hasSub "UNBRANDED" u then some "Unbranded"
    else none
  let base := stripCommaSp (reSubAll poultrySubRe [] text)
  if hasSub "EGG" u then ("Chicken Egg", some "Medium (56-60 grams/pc)")
  else ((⟨base⟩ : String), brand)

/-- Vegetable section, lines 305–375 (always returns). -/
def vegRules (text u : List Char) : String × Option String :=
  let spec : Option String :=
    (reSearchSpan vegSpecRe text).map (fun sp => (⟨pyStripL sp⟩ : String))
  let base0 := reSubAll vegSpecRe [] text
  let base1 := reSubAll vegNoiseRe [] base0
  let base2 := reSubAll vegParenRe [] base1
  let base3 := reSubAll wsPlusRe [' '] base2
  if hasSub "BELL PEPPER" u then
    if hasSub "GREEN" u then ("Bell Pepper (Green)", spec)
    else if hasSub "RED" u then ("Bell Pepper (Red)", spec)
    else ("Bell Pepper", spec)
  else if hasSub "CABBAGE" u then
    if hasSub "RARE BALL" u then ("Cabbage (Rare Ball)", spec)
    else if hasSub "SCORPIO" u then ("Cabbage (Scorpio)", spec)
    else if hasSub "WONDER BALL" u then ("Cabbage (Wonder Ball)", spec)
    else ("Cabbage", spec)
  else if hasSub "LETTUCE" u then
    if hasSub "GREEN ICE" u then ("Lettuce (Green Ice)", spec)
    else if hasSub "ICEBERG" u then ("Lettuce (Iceberg)", spec)
    else if hasSub "ROMAINE" u then ("Lettuce (Romaine)", spec)
    else ("Lettuce", spec)
  else if hasSub "BROCCOLI" u then ("Broccoli", spec)
  else if hasSub "POTATO" u then ("White Potato", spec)
  else if hasSub "CAULIFLOWER" u then ("Cauliflower", spec)
  else if hasSub "CARROTS" u || hasSub "CARROT" u then ("Carrots", spec)
  else if hasSub "CELERY" u then ("Celery", spec)
  else if hasSub "CHAYOTE" u then ("Chayote", spec)
  else if hasSub "HABICHUELAS" u || hasSub "BAGUIO BEANS" u then
    ("Baguio Beans", spec)
  else if hasSub "PECHAY" u && hasSub "BAGUIO" u then ("Pechay Baguio", spec)
  else ((⟨stripCommaSpParen base3⟩ : String), spec)

/-- Spices section, lines 380–407 (can fall through, e.g. an onion that is
neither red nor white). -/
def spiceRules (u : List Char) : Option (String × Option String) :=
  let onionSize : Option String :=
    if hasSub "LARGE" u then some "Large"
    else if hasSub "MEDIUM" u then some "Medium"
    else none
  if (hasSub "CHILLI" u || hasSub "CHILI" u) &&
      (hasSub "RED" u || hasSub "TINGALA" u) then
    some ("Chilli Red", some "Tingala")
  else if (hasSub "CHILLI" u || hasSub "CHILI" u) && hasSub "GREEN" u then
    some ("Chilli Green", some "Haba/Panigang")
  else if (hasSub "CHILLI" u || hasSub "CHILI" u) && hasSub "TIGER" u then
    some ("Tiger Chillies", none)
  else if hasSub "GARLIC" u && hasSub "NATIVE" u then
    some ("Garlic Native", none)
  else if hasSub "GARLIC" u then some ("Garlic", none)
  else if hasSub "GINGER" u then some ("Ginger", some "Medium (150-300 gm)")
  else if hasSub "ONION" u && hasSub "RED" u then some ("Red Onion", onionSize)
  else if hasSub "ONION" u && hasSub "WHITE" u then
    some ("White Onion", onionSize)
  else none

/-- Fruit section, lines 412–434 (always returns). -/
def fruitRules (text u : List Char) : String × Option String :=
  let spec : Option String :=
    (reSearchSpan fruitAltsRe text).map (fun sp => (⟨sp⟩ : String))
  let base := reSubAll fruitSubRe [] text
  if hasSub "BANANA" u && hasSub "LAKATAN" u then
    ("Banana (Lakatan)", some "8-10 pcs/kg")
  else if hasSub "BANANA" u && hasSub "LATUNDAN" u then
    ("Banana (Latundan)", some "10-12 pcs/kg")
  else if hasSub "BANANA" u && hasSub "SABA" u then ("Banana (Saba)", none)
  else if hasSub "MANGO" u && hasSub "CARABAO" u then
    ("Mango (Carabao)", some "Ripe, 3-4 pcs/kg")
  else if hasSub "PAPAYA" u then ("Papaya", some "Solo, Ripe, 2-3 pcs/kg")
  else ((⟨stripCommaSpParen base⟩ : String), spec)

/-- Other-basic-commodities section, lines 439–470 (sugar and salt without
a qualifier fall through). -/
def basicRules (u : List Char) : Option (String × Option String) :=
  if hasSub "COOKING OIL" u then
    let brand_type : String :=
      if hasSub "COCONUT" u then "Coconut"
      else if hasSub "MINOLA" u then "Minola"
      else if hasSub "SPRING" u then "Spring"
      else if hasSub "JOLLY" u || hasSub "PALM OLEIN" u then
        "Palm Olein (Jolly)"
      else "Palm"
    some ("Cooking Oil (" ++ brand_type ++ ")", none)
  else if hasSub "SUGAR" u && hasSub "REFINED" u then
    some ("Sugar (Refined)", none)
  else if hasSub "SUGAR" u && hasSub "WASHED" u then
    some ("Sugar (Washed)", none)
  else if hasSub "SUGAR" u && hasSub "BROWN" u then
    some ("Sugar (Brown)", none)
  else if hasSub "SALT" u && hasSub "IODIZED" u then
    some ("Salt (Iodized)", none)
  else if hasSub "SALT" u && hasSub "ROCK" u then some ("Salt (Rock)", none)
  else none

/-- Generic fallback cleanup, lines 475–480. -/
def fallbackClean (text : List Char) : String × Option String :=
  let b0 := reSubAll fallbackNoiseRe [] text
  let b1 := reSubAll fallbackUnitRe [] b0
  ((⟨stripCommaSpParen b1⟩ : String), none)

/-- `normalize_commodity_name(commodity_text, category)`. -/
def normalize_commodity_name (commodity_text category : String) :
    String × Option String :=
  let text := sanitizeL commodity_text.toList
  let u := upperL text
  let ucat := upperL category.toList
  firstSomeD
    [optIf (hasSub "RICE" ucat) (riceRules u),
     optIf (hasSub "CORN" ucat) (cornRules u),
     optIf (hasSub "FISH" ucat) (fishRules text u),
     optIf (hasSub "BEEF" ucat) (some (beefRules text u)),
     optIf (hasSub "PORK" ucat) (some (porkRules text u)),
     optIf (hasSub "POULTRY" ucat) (some (poultryRules text u)),
     optIf (hasSub "VEGETABLE" ucat) (some (vegRules text u)),
     optIf (hasSub "SPICE" ucat) (spiceRules u),
     optIf (hasSub "FRUIT" ucat) (some (fruitRules text u)),
     optIf (hasSub "BASIC" ucat) (basicRules u)]
    (fallbackClean text)

/-! ### The covered-markets extractor (lines 502–512)

The block regex `(?:d\)|Covered markets:)\s*(1\..+?)(?:Page|\Z)` with
DOTALL and IGNORECASE is embedded directly: scan for the leftmost position
where one of the two marker alternatives matches, skip whitespace, require
the literal `1.`, then take the shortest nonempty body ending at a
case-insensitive `Page` or at the end of the text. -/

def startsWithCIL (n h : List Char) : Bool :=
  startsWithL (upperL n) (upperL h)

/-- The lazy `.+?` body: at least one character, then stop at the first
position where `Page` (case-insensitive) starts, or at the end. -/
def takeUntilPage : List Char → List Char
  | [] => []
  | c :: t =>
    if startsWithCIL "Page".toList (c :: t) then []
    else c :: takeUntilPage t

/-- Try the full block pattern anchored at the current position. -/
def marketTry (s : List Char) : Option (List Char) :=
  let afterMarker : Option (List Char) :=
    if startsWithCIL "d)".toList s then some (s.drop 2)
    else if startsWithCIL "Covered markets:".toList s then some (s.drop 16)
    else none
  match afterMarker with
  | none => none
  | some rest =>
    let rest2 := rest.dropWhile isPySpace
    if startsWithL "1.".toList rest2 then
      match rest2.drop 2 with
      | [] => none
      | c :: t => some ('1' :: '.' :: c :: takeUntilPage t)
    else none

/-- Leftmost-start scan for the block pattern (group 1 of the match). -/
def marketScan : List Char → Option (List Char)
  | [] => none
  | c :: t =>
    match marketTry (c :: t) with
    | some g => some g
    | none => marketScan t

/-- `re.sub(r'[\n\r]', ' ', m).strip()` applied to one fragment. -/
def sanitizeFragment (m : List Char) : List Char :=
  pyStripL (m.map (fun c => if c == '\n' || c == '\r' then ' ' else c))

/-- `list(dict.fromkeys(...))`: deduplicate keeping first-seen order. -/
def dedupeFirst (l : List String) : List String :=
  l.foldl (fun acc m => if m ∈ acc then acc else acc ++ [m]) []

/-- Lines 508–512: split the block on numeric list markers, keep raw
fragments longer than 3 characters, sanitize each, deduplicate. -/
def covered_markets_of (raw : List Char) : List String :=
  match marketScan raw with
  | none => []
  | some block =>
    let raw_markets := reSplit marketSplitRe block
    dedupeFirst (((raw_markets.filter (fun m => 3 < m.length)).map
      (fun m => (⟨sanitizeFragment m⟩ : String))))

/-! ### The line loop (`parse_text_to_json`, lines 486–725) -/

/-- One parsed commodity price entry (the `PriceRow` pydantic model).
A price always carries exactly two decimal digits in the source, so it is
represented exactly as an integer count of hundredths: `250.00 ↦ 25000`. -/
structure PriceRow where
  category : String
  commodity : String
  origin : Option String
  unit : String
  price : Option ℤ
deriving DecidableEq, Repr

/-- The 13 fixed category headers (lines 71–77). -/
def KNOWN_CATEGORIES : List String :=
  ["IMPORTED COMMERCIAL RICE", "LOCAL COMMERCIAL RICE", "CORN PRODUCTS",
   "FISH PRODUCTS", "BEEF MEAT PRODUCTS", "PORK MEAT PRODUCTS",
   "OTHER LIVESTOCK MEAT PRODUCTS", "POULTRY PRODUCTS",
   "LOWLAND VEGETABLES", "HIGHLAND VEGETABLES", "SPICES",
   "FRUITS", "OTHER BASIC COMMODITIES"]

/-- The first known category that occurs in the uppercased line
(lines 527–533). -/
def firstCategory (line : List Char) : Option String :=
  KNOWN_CATEGORIES.find? (fun c => isSubL c.toList (upperL line))

/-- The transient parser state: current category and the two continuation
buffers. -/
structure PState where
  cat : String
  cbuf : List String
  sbuf : List String
deriving DecidableEq, Repr

/-- The trailing-price search of line 560: the text before the match and
the price token (`group(1)`, the span without its surrounding
whitespace). -/
def priceSplit (line : List Char) : Option (List Char × List Char) :=
  (reSearch priceRe line).map (fun x => (x.1, pyStripL x.2.1))

/-- Number of keywords from `kws` occurring as substrings of `hay`. -/
def countSubs (kws : List String) (hay : List Char) : Nat :=
  (kws.filter (fun k => isSubL k.toList hay)).length

/-- Digits to a natural number. -/
def natOfDigits (l : List Char) : Nat :=
  l.foldl (fun n c => n * 10 + (c.toNat - 48)) 0

/-- `float(price_str)` on a token of the form `digits.dd` (commas already
removed), represented exactly as hundredths. -/
def parsePriceC (l : List Char) : ℤ :=
  let ip := l.takeWhile (fun c => c != '.')
  let fp := l.drop (ip.length + 1)
  ((natOfDigits ip * 100 + natOfDigits fp : ℕ) : ℤ)

/-- `str.replace(pat, repl)` (all occurrences, literal), with a structural
scan bound. -/
def replaceAllAux (pat repl : List Char) : Nat → List Char → List Char
  | 0, s => s
  | _ + 1, [] => []
  | fuel + 1, c :: t =>
    if startsWithL pat (c :: t) && !pat.isEmpty then
      repl ++ replaceAllAux pat repl fuel (t.drop (pat.length - 1))
    else c :: replaceAllAux pat repl fuel t

def replaceAllL (pat repl l : List Char) : List Char :=
  replaceAllAux pat repl (l.length + 1) l

/-- `" ".join(strings)`. -/
def joinSpaces (l : List String) : String :=
  ⟨List.intercalate [' '] (l.map String.toList)⟩

/-- The column-header keyword list of line 580. -/
def headerKw7 : List String :=
  ["PREVAILING", "RETAIL", "PRICE", "COMMODITY", "SPECIFICATION", "UNIT",
   "P/UNIT"]

/-- The final blacklist of line 692. -/
def blacklist : List String :=
  ["PREVAILING", "PRICE", "UNIT", "COMMODITY", "SPECIFICATION", "PAGE",
   "RETAIL", "RETAIL PRICE PER", "PREVAILING RETAIL", "PRICE PER UNIT"]

/-- The "Save row" guard of lines 690–704: emit the row only when the name
is nonempty, longer than two characters, not blacklisted, and has fewer
than two header keywords (the price is already known to be numeric). -/
def rowGuard (cleanCat cleanName origin unit : String) (p : ℤ) :
    Option PriceRow :=
  if cleanName != "" && 2 < cleanName.length then
    if !(blacklist.contains (⟨upperL cleanName.toList⟩ : String)) &&
        countSubs ["RETAIL", "PRICE", "PER", "UNIT", "PREVAILING"]
          (upperL cleanName.toList) < 2 then
      some ⟨cleanCat, cleanName, some origin, unit, some p⟩
    else none
  else none

/-- Lines 567–635: the header-noise cleanup applied to the portion of a
price-terminated line that precedes the price.  Returns the cleaned
content, or `none` when the line is recognized as a pagination marker or a
column-header echo and must be skipped (with a buffer reset but no row). -/
def contentPipeline (content0 : List Char) : Option (List Char) :=
  if reTest pageRe content0 then none
  else
  let hk := countSubs headerKw7 (upperL content0)
  if 2 ≤ hk || hasSub "RETAIL PRICE PER" (upperL content0) ||
      hasSub "PREVAILING RETAIL" (upperL content0) then none
  else
  let content1 := pyStripL (reSubAll phraseRe [] content0)
  if content1 == content0 && 1 ≤ hk then none
  else
  let content2 := pyStripL (reSubAll bigWordRe [] content1)
  let content3 := pyStripL (reSubAll wsPlusRe [' '] content2)
  if content3.isEmpty || content3.length < 3 then none
  else if hasSub "RETAIL" (upperL content3) &&
      hasSub "PRICE" (upperL content3) then none
  else some content3

/-- Lines 562–704: close a record on a price-terminated line.  `content0`
is `line[:price_match.start()].strip()` and `tok` the price token.
Returns the emitted row, if any (the caller resets the buffers
unconditionally). -/
def closeRow (cat : String) (cbuf sbuf : List String)
    (content0 tok : List Char) : Option PriceRow :=
  let priceStr := tok.filter (fun c => c != ',')
  match contentPipeline content0 with
  | none => none
  | some content3 =>
  let origin : String :=
    if hasSub "IMPORTED" (upperL content3) || hasSub "IMPORTED" cat.toList
    then "Imported" else "Local"
  let contentClean := pyStripL (reSubAll originRe [] content3)
  let fullSpec0 : String :=
    if !sbuf.isEmpty then joinSpaces (sbuf ++ [(⟨contentClean⟩ : String)])
    else (⟨contentClean⟩ : String)
  let fullComm0 : String := if !cbuf.isEmpty then joinSpaces cbuf else ""
  let fullComm : String :=
    if fullComm0 == "" then (⟨contentClean⟩ : String) else fullComm0
  let fullSpec : String := if fullComm0 == "" then "" else fullSpec0
  let nres := normalize_commodity_name fullComm cat
  let cleanName := nres.1
  let unit := extract_unit_from_spec
    (if fullSpec != "" then fullSpec else fullComm) cleanName
  let finalPrice : Option ℤ :=
    if priceStr == "n/a".toList || priceStr == "-".toList then none
    else some (parsePriceC priceStr)
  let cleanCat : String :=
    ⟨pyStripL (replaceAllL "LOCAL ".toList []
      (replaceAllL "IMPORTED ".toList [] cat.toList))⟩
  match finalPrice with
  | none => none
  | some p => rowGuard cleanCat cleanName origin unit p

/-- One iteration of the `while i < len(lines)` loop (lines 518–720):
process one raw line, returning the next state and the rows emitted by
this line. -/
def step1 (s : PState) (rawLine : String) : PState × List PriceRow :=
  let line := pyStripL rawLine.toList
  if line.isEmpty then (s, [])
  else
    match firstCategory line with
    | some c => (⟨c, [], []⟩, [])
    | none =>
      if reTest pageRe line then (s, [])
      else if 1 ≤ countSubs ["Source:", "Note:", "Department"] line ||
          hasSub "PREVAILING" line || hasSub "COMMODITY" line ||
          hasSub "SPECIFICATION" line || hasSub "PRICE PER UNIT" line then
        (s, [])
      else if s.cat == "UNKNOWN" then (s, [])
      else
        match priceSplit line with
        | some bt =>
          (⟨s.cat, [], []⟩,
           (closeRow s.cat s.cbuf s.sbuf (pyStripL bt.1) bt.2).toList)
        | none =>
          if s.cbuf.isEmpty then
            (⟨s.cat, s.cbuf ++ [(⟨line⟩ : String)], s.sbuf⟩, [])
          else (⟨s.cat, s.cbuf, s.sbuf ++ [(⟨line⟩ : String)]⟩, [])

/-- The whole line loop, with the emitted rows in order. -/
def processLines (s : PState) : List String → PState × List PriceRow
  | [] => (s, [])
  | l :: ls =>
    let r1 := step1 s l
    let r2 := processLines r1.1 ls
    (r2.1, r1.2 ++ r2.2)

/-- `raw_text.split('\n')` on character lists. -/
def splitNL : List Char → List (List Char)
  | [] => [[]]
  | c :: cs =>
    if c == '\n' then [] :: splitNL cs
    else
      match splitNL cs with
      | [] => [[c]]
      | h :: t => (c :: h) :: t

def pyLines (s : String) : List String :=
  (splitNL s.toList).map (fun l => (⟨l⟩ : String))

/-- The parse result: covered markets plus price rows. -/
structure ParseResult where
  covered_markets : List String
  price_data : List PriceRow
deriving DecidableEq, Repr

def initState : PState := ⟨"UNKNOWN", [], []⟩

/-- `parse_text_to_json(raw_text)`. -/
def parse_text_to_json (raw : String) : ParseResult :=
  ⟨covered_markets_of raw.toList, (processLines initState (pyLines raw)).2⟩

/-! ### Statement-side definitions -/

/-- A single-category document: its first line is one of the 13 category
headers and no later line mentions a category header. -/
def isSingleCatDoc (d : String) : Bool :=
  match pyLines d with
  | [] => false
  | h :: t =>
    (firstCategory (pyStripL h.toList)).isSome &&
      t.all (fun l => (firstCategory (pyStripL l.toList)).isNone)

/-- Remove duplicates keeping the first occurrence, by direct recursion. -/
def dedupRec : List String → List String
  | [] => []
  | x :: xs => x :: dedupRec (xs.filter (fun y => y ≠ x))
  termination_by l => l.length
  decreasing_by
    exact Nat.lt_succ_of_le (List.length_filter_le _ _)

/-- Modelled from the spec: the amended market-list contract.  The spec's
§4.2 sentence, corrected on one point — the shorter-than-4 filter applies
to the raw fragment before sanitization, not after it: split the block on
numeric list markers, discard raw fragments of length at most 3, sanitize
each survivor, and remove duplicates while preserving first-seen order;
yield the empty sequence when no covered-markets block exists. -/
def marketsAmendedSpec (raw : String) : List String :=
  match marketScan raw.toList with
  | none => []
  | some block =>
    dedupRec ((reSplit marketSplitRe block).filterMap
      (fun m => if 3 < m.length
        then some ((⟨sanitizeFragment m⟩ : String)) else none))

/-- The allowed units of the unit resolver. -/
def allowedUnits : List String := ["kg", "pc", "350 ml", "500 ml", "1 L", "L"]

/-- The uppercased sanitized view of a commodity text, exactly the
`upper_text` the normalizer matches its keywords against. -/
def upperSan (t : String) : List Char := upperL (sanitizeL t.data)

/-! ### Properties of the sanitizer -/

theorem space_spc : isPySpace ' ' = true := by decide

theorem wordsL_space_cons (c : Char) (cs : List Char)
    (h : isPySpace c = true) : wordsL (c :: cs) = wordsL cs := by
  simp [wordsL, h]

theorem wordsL_one (c : Char) (hc : isPySpace c = false) :
    wordsL [c] = [[c]] := by
  simp [wordsL, hc]

theorem wordsL_cons_sp (c d : Char) (cs : List Char)
    (hc : isPySpace c = false) (hd : isPySpace d = true) :
    wordsL (c :: d :: cs) = [c] :: wordsL (d :: cs) := by
  simp [wordsL, hc, hd]

theorem wordsL_cons_nsp (c d : Char) (cs w0 : List Char)
    (ws0 : List (List Char)) (hc : isPySpace c = false)
    (hd : isPySpace d = false) (hrest : wordsL (d :: cs) = w0 :: ws0) :
    wordsL (c :: d :: cs) = (c :: w0) :: ws0 := by
  rw [wordsL.eq_def]
  simp [hc, hd, hrest]

theorem wordsL_cons_nsp_nil (c d : Char) (cs : List Char)
    (hc : isPySpace c = false) (hd : isPySpace d = false)
    (hrest : wordsL (d :: cs) = []) :
    wordsL (c :: d :: cs) = [[c]] := by
  rw [wordsL.eq_def]
  simp [hc, hd, hrest]

theorem wordsL_sound (l : List Char) :
    ∀ w ∈ wordsL l, w ≠ [] ∧ ∀ c ∈ w, isPySpace c = false := by
  induction l with
  | nil => simp [wordsL]
  | cons c cs ih =>
    intro w hw
    by_cases hc : isPySpace c
    · exact ih w (by rwa [wordsL_space_cons c cs (by simpa using hc)] at hw)
    · have hc' : isPySpace c = false := by simpa using hc
      cases cs with
      | nil =>
        rw [wordsL_one c hc'] at hw
        simp only [List.mem_singleton] at hw
        subst hw
        exact ⟨by simp, by simp [hc']⟩
      | cons d cs' =>
        by_cases hd : isPySpace d
        · rw [wordsL_cons_sp c d cs' hc' (by simpa using hd)] at hw
          rcases List.mem_cons.mp hw with hw | hw
          · subst hw
            exact ⟨by simp, by simp [hc']⟩
          · exact ih w hw
        · have hd' : isPySpace d = false := by simpa using hd
          cases hrest : wordsL (d :: cs') with
          | nil =>
            rw [wordsL_cons_nsp_nil c d cs' hc' hd' hrest] at hw
            simp only [List.mem_singleton] at hw
            subst hw
            exact ⟨by simp, by simp [hc']⟩
          | cons w0 ws0 =>
            rw [wordsL_cons_nsp c d cs' w0 ws0 hc' hd' hrest] at hw
            rcases List.mem_cons.mp hw with hw | hw
            · subst hw
              have h0 := ih w0 (by rw [hrest]; simp)
              refine ⟨by simp, ?_⟩
              intro a ha
              rcases List.mem_cons.mp ha with ha | ha
              · subst ha; exact hc'
              · exact h0.2 a ha
            · exact ih w (by rw [hrest]; exact List.mem_cons_of_mem _ hw)

theorem wordsL_subset (l : List Char) :
    ∀ w ∈ wordsL l, ∀ c ∈ w, c ∈ l := by
  induction l with
  | nil => simp [wordsL]
  | cons c cs ih =>
    intro w hw a ha
    by_cases hc : isPySpace c
    · exact List.mem_cons_of_mem _
        (ih w (by rwa [wordsL_space_cons c cs (by simpa using hc)] at hw) a ha)
    · have hc' : isPySpace c = false := by simpa using hc
      cases cs with
      | nil =>
        rw [wordsL_one c hc'] at hw
        simp only [List.mem_singleton] at hw
        subst hw
        simpa using ha
      | cons d cs' =>
        by_cases hd : isPySpace d
        · rw [wordsL_cons_sp c d cs' hc' (by simpa using hd)] at hw
          rcases List.mem_cons.mp hw with hw | hw
          · subst hw
            simp only [List.mem_singleton] at ha
            subst ha
            exact List.mem_cons_self _ _
          · exact List.mem_cons_of_mem _ (ih w hw a ha)
        · have hd' : isPySpace d = false := by simpa using hd
          cases hrest : wordsL (d :: cs') with
          | nil =>
            rw [wordsL_cons_nsp_nil c d cs' hc' hd' hrest] at hw
            simp only [List.mem_singleton] at hw
            subst hw
            simp only [List.mem_singleton] at ha
            subst ha
            exact List.mem_cons_self _ _
          | cons w0 ws0 =>
            rw [wordsL_cons_nsp c d cs' w0 ws0 hc' hd' hrest] at hw
            rcases List.mem_cons.mp hw with hw | hw
            · subst hw
              rcases List.mem_cons.mp ha with ha | ha
              · subst ha; exact List.mem_cons_self _ _
              · exact List.mem_cons_of_mem _
                  (ih w0 (by rw [hrest]; simp) a ha)
            · exact List.mem_cons_of_mem _
                (ih w (by rw [hrest]; exact List.mem_cons_of_mem _ hw) a ha)

theorem mem_joinWords (ws : List (List Char)) (c : Char)
    (h : c ∈ joinWords ws) : c = ' ' ∨ ∃ w ∈ ws, c ∈ w := by
  induction ws with
  | nil => simp [joinWords] at h
  | cons w ws ih =>
    cases ws with
    | nil =>
      simp only [joinWords] at h
      exact Or.inr ⟨w, by simp, h⟩
    | cons w' rest =>
      rw [joinWords] at h
      rcases List.mem_append.mp h with h1 | h1
      · exact Or.inr ⟨w, by simp, h1⟩
      · rcases List.mem_cons.mp h1 with h2 | h2
        · exact Or.inl h2
        · rcases ih h2 with h3 | ⟨v, hv, hcv⟩
          · exact Or.inl h3
          · exact Or.inr ⟨v, List.mem_cons_of_mem _ hv, hcv⟩

theorem wordsL_word (w : List Char) (hne : w ≠ [])
    (hsp : ∀ c ∈ w, isPySpace c = false) : wordsL w = [w] := by
  induction w with
  | nil => exact absurd rfl hne
  | cons c cs ih =>
    cases cs with
    | nil => exact wordsL_one c (hsp c (by simp))
    | cons d cs' =>
      have hrest := ih (by simp) (fun a ha => hsp a (List.mem_cons_of_mem _ ha))
      exact wordsL_cons_nsp c d cs' (d :: cs') [] (hsp c (by simp))
        (hsp d (by simp)) hrest

theorem wordsL_word_append (w : List Char) (r : List Char) (hne : w ≠ [])
    (hsp : ∀ c ∈ w, isPySpace c = false) :
    wordsL (w ++ ' ' :: r) = w :: wordsL r := by
  induction w with
  | nil => exact absurd rfl hne
  | cons c cs ih =>
    cases cs with
    | nil =>
      rw [List.cons_append, List.nil_append]
      rw [wordsL_cons_sp c ' ' r (hsp c (by simp)) space_spc]
      rw [wordsL_space_cons ' ' r space_spc]
    | cons d cs' =>
      have hrest := ih (by simp) (fun a ha => hsp a (List.mem_cons_of_mem _ ha))
      rw [List.cons_append] at hrest ⊢
      exact wordsL_cons_nsp c d (cs' ++ ' ' :: r) (d :: cs') (wordsL r)
        (hsp c (by simp)) (hsp d (by simp)) hrest

theorem wordsL_joinWords (ws : List (List Char))
    (h : ∀ w ∈ ws, w ≠ [] ∧ ∀ c ∈ w, isPySpace c = false) :
    wordsL (joinWords ws) = ws := by
  induction ws with
  | nil => simp [joinWords, wordsL]
  | cons w ws ih =>
    cases ws with
    | nil =>
      simp only [joinWords]
      exact wordsL_word w (h w (by simp)).1 (h w (by simp)).2
    | cons w' rest =>
      rw [joinWords]
      rw [wordsL_word_append w _ (h w (by simp)).1 (h w (by simp)).2]
      rw [ih (fun v hv => h v (List.mem_cons_of_mem _ hv))]

theorem sanitizeL_idem (l : List Char) : sanitizeL (sanitizeL l) = sanitizeL l := by
  unfold sanitizeL collapseJoin
  set l0 := l.filter (fun c => !isCtrl c) with hl0
  set ws := wordsL l0 with hws
  have hgood : ∀ w ∈ ws, w ≠ [] ∧ ∀ c ∈ w, isPySpace c = false :=
    wordsL_sound l0
  have hctrl : (joinWords ws).filter (fun c => !isCtrl c) = joinWords ws := by
    apply List.filter_eq_self.mpr
    intro c hc
    rcases mem_joinWords ws c hc with h | ⟨w, hw, hcw⟩
    · subst h
      simp [isCtrl]
    · have hcl : c ∈ l0 := wordsL_subset l0 w hw c hcw
      have := List.of_mem_filter hcl
      simpa using this
  rw [hctrl, wordsL_joinWords ws hgood]

/-- C9 — The text sanitizer (control-character removal, whitespace
collapsing, trimming) is idempotent: applying it twice equals applying it
once, for every input string. -/
theorem C9_sanitizer_idempotent (s : String) :
    sanitize (sanitize s) = sanitize s := by
  unfold sanitize
  exact congrArg String.mk (sanitizeL_idem s.toList)

/-! ### Invariants of emitted rows -/

theorem parsePriceC_nonneg (l : List Char) : 0 ≤ parsePriceC l :=
  Int.natCast_nonneg _

theorem extract_unit_mem (s n : String) :
    extract_unit_from_spec s n ∈ allowedUnits := by
  simp only [extract_unit_from_spec]
  split
  · simp [allowedUnits]
  · split
    · split
      · simp [allowedUnits]
      · split
        · simp [allowedUnits]
        · split <;> simp [allowedUnits]
    · simp [allowedUnits]

theorem rowGuard_sound (cc cn o u : String) (p : ℤ) (r : PriceRow)
    (h : rowGuard cc cn o u p = some r) :
    2 < r.commodity.length ∧ r = ⟨cc, cn, some o, u, some p⟩ := by
  unfold rowGuard at h
  split at h
  · split at h
    · obtain ⟨rfl⟩ := Option.some.inj h
      rename_i hguard _
      simp only [Bool.and_eq_true, decide_eq_true_eq] at hguard
      exact ⟨hguard.2, rfl⟩
    · exact absurd h (by simp)
  · exact absurd h (by simp)

theorem closeRow_sound (cat : String) (cbuf sbuf : List String)
    (c0 tok : List Char) (r : PriceRow)
    (h : closeRow cat cbuf sbuf c0 tok = some r) :
    2 < r.commodity.length ∧ (∃ p, r.price = some p ∧ 0 ≤ p) ∧
      r.unit ∈ allowedUnits := by
  unfold closeRow at h
  split at h
  · exact absurd h (by simp)
  · unfold_let at h
    split at h
    · exact absurd h (by simp)
    · rename_i p heq
      obtain ⟨hlen, rfl⟩ := rowGuard_sound _ _ _ _ _ _ h
      refine ⟨hlen, ⟨_, rfl, ?_⟩, extract_unit_mem _ _⟩
      split at heq
      · exact absurd heq (by simp)
      · obtain ⟨rfl⟩ := Option.some.inj heq
        exact parsePriceC_nonneg _

/-- Case analysis on one loop iteration: a line either emits nothing or
emits exactly the rows of its `closeRow` call. -/
theorem step1_cases (s : PState) (l : String) :
    (step1 s l).2 = [] ∨
      ∃ bt, priceSplit (pyStripL l.toList) = some bt ∧
        (step1 s l).2 =
          (closeRow s.cat s.cbuf s.sbuf (pyStripL bt.1) bt.2).toList := by
  unfold step1
  unfold_let
  split
  · exact Or.inl rfl
  · split
    · exact Or.inl rfl
    · split
      · exact Or.inl rfl
      · split
        · exact Or.inl rfl
        · split
          · exact Or.inl rfl
          · split
            · rename_i bt hbt
              exact Or.inr ⟨bt, hbt, rfl⟩
            · split
              · exact Or.inl rfl
              · exact Or.inl rfl

theorem step1_sound (s : PState) (l : String) (r : PriceRow)
    (h : r ∈ (step1 s l).2) :
    2 < r.commodity.length ∧ (∃ p, r.price = some p ∧ 0 ≤ p) ∧
      r.unit ∈ allowedUnits := by
  rcases step1_cases s l with hc | ⟨bt, _, hc⟩
  · rw [hc] at h
    exact absurd h (by simp)
  · rw [hc, Option.mem_toList, Option.mem_def] at h
    exact closeRow_sound _ _ _ _ _ _ h

theorem processLines_sound (s : PState) (ls : List String) (r : PriceRow)
    (h : r ∈ (processLines s ls).2) :
    2 < r.commodity.length ∧ (∃ p, r.price = some p ∧ 0 ≤ p) ∧
      r.unit ∈ allowedUnits := by
  induction ls generalizing s with
  | nil => simp [processLines] at h
  | cons l ls ih =>
    simp only [processLines] at h
    rcases List.mem_append.mp h with h | h
    · exact step1_sound s l r h
    · exact ih _ h

/-- C4 — Every `PriceRow` the parser emits, for any input text, has a
commodity name strictly longer than 2 characters and a present,
non-negative price (prices are in exact hundredths). -/
theorem C4_row_invariant (input : String) (r : PriceRow)
    (h : r ∈ (parse_text_to_json input).price_data) :
    2 < r.commodity.length ∧ ∃ p, r.price = some p ∧ 0 ≤ p := by
  have hs := processLines_sound initState (pyLines input) r h
  exact ⟨hs.1, hs.2.1⟩

/-- Witness for C4 at a concrete input and its emitted record. -/
theorem C4_row_invariant_witness :
    2 < (PriceRow.mk "FISH PRODUCTS" "Bangus" (some "Local") "kg"
        (some 25000)).commodity.length ∧
      ∃ p, (PriceRow.mk "FISH PRODUCTS" "Bangus" (some "Local") "kg"
        (some 25000)).price = some p ∧ 0 ≤ p :=
  C4_row_invariant "FISH PRODUCTS\nBangus\nLarge                      250.00"
    (PriceRow.mk "FISH PRODUCTS" "Bangus" (some "Local") "kg" (some 25000))
    (by decide)

/-- C10 — The unit resolver only ever returns one of the six fixed unit
strings, and consequently the unit field of every emitted record is one of
them (never absent). -/
theorem C10_unit_range :
    (∀ s n : String, extract_unit_from_spec s n ∈ allowedUnits) ∧
      (∀ (input : String) (r : PriceRow),
        r ∈ (parse_text_to_json input).price_data →
          r.unit ∈ allowedUnits) :=
  ⟨extract_unit_mem,
   fun input r h => (processLines_sound initState (pyLines input) r h).2.2⟩

/-- Witness for C10 at a concrete input and its emitted record. -/
theorem C10_unit_range_witness :
    (PriceRow.mk "FISH PRODUCTS" "Bangus" (some "Local") "kg"
      (some 25000)).unit ∈ allowedUnits :=
  C10_unit_range.2 "FISH PRODUCTS\nBangus\nLarge                      250.00"
    (PriceRow.mk "FISH PRODUCTS" "Bangus" (some "Local") "kg" (some 25000))
    (by decide)

/-! ### Concatenation of single-category documents -/

theorem processLines_append (s : PState) (l1 l2 : List String) :
    processLines s (l1 ++ l2) =
      ((processLines (processLines s l1).1 l2).1,
       (processLines s l1).2 ++ (processLines (processLines s l1).1 l2).2) := by
  induction l1 generalizing s with
  | nil => simp [processLines]
  | cons a t ih =>
    simp only [List.cons_append, processLines, List.append_eq]
    rw [ih]
    simp [List.append_assoc]

/-- A category-header line resets the state identically from any prior
state and emits nothing. -/
theorem step1_category (s : PState) (l : String) (c : String)
    (h : firstCategory (pyStripL l.toList) = some c) :
    step1 s l = (⟨c, [], []⟩, []) := by
  have hne : pyStripL l.data ≠ [] := by
    intro he
    rw [show l.toList = l.data from rfl, he] at h
    have hfc : firstCategory ([] : List Char) = none := by decide
    rw [hfc] at h
    cases h
  unfold step1
  unfold_let
  rw [if_neg (by simp [List.isEmpty_iff, hne]), h]

theorem splitNL_ne_nil (l : List Char) : splitNL l ≠ [] := by
  cases l with
  | nil => simp [splitNL]
  | cons c cs =>
    rw [splitNL]
    split
    · simp
    · split <;> simp

theorem splitNL_append (a b : List Char) :
    splitNL (a ++ '\n' :: b) = splitNL a ++ splitNL b := by
  induction a with
  | nil => simp [splitNL]
  | cons c t ih =>
    by_cases hc : c = '\n'
    · subst hc
      rw [List.cons_append, splitNL,
        if_pos (show (('\n' : Char) == '\n') = true from rfl), ih, splitNL,
        if_pos (show (('\n' : Char) == '\n') = true from rfl)]
      rfl
    · have hcb : ¬((c == '\n') = true) := by simp [hc]
      rw [List.cons_append, splitNL, if_neg hcb, ih, splitNL, if_neg hcb]
      cases hsp : splitNL t with
      | nil => exact absurd hsp (splitNL_ne_nil t)
      | cons h2 t2 => simp

theorem pyLines_append (d1 d2 : String) :
    pyLines (d1 ++ "\n" ++ d2) = pyLines d1 ++ pyLines d2 := by
  unfold pyLines
  have hdata : (d1 ++ "\n" ++ d2).toList = d1.toList ++ '\n' :: d2.toList := by
    show (d1 ++ "\n" ++ d2).data = d1.data ++ '\n' :: d2.data
    rw [String.data_append, String.data_append]
    simp
  rw [hdata, splitNL_append, List.map_append]

/-- C5 — Parsing the newline concatenation of two single-category documents
yields exactly the rows of the first followed by the rows of the second:
the second document's category header resets the state to the same value
from any prior state. -/
theorem C5_concat_isolates (d1 d2 : String)
    (h1 : isSingleCatDoc d1 = true) (h2 : isSingleCatDoc d2 = true) :
    (parse_text_to_json (d1 ++ "\n" ++ d2)).price_data =
      (parse_text_to_json d1).price_data ++
        (parse_text_to_json d2).price_data := by
  unfold parse_text_to_json
  simp only
  rw [pyLines_append, processLines_append]
  have key : ∀ s : PState,
      (processLines s (pyLines d2)).2 =
        (processLines initState (pyLines d2)).2 := by
    intro s
    cases hpl : pyLines d2 with
    | nil => rw [isSingleCatDoc, hpl] at h2; cases h2
    | cons hd tl =>
      rw [isSingleCatDoc, hpl] at h2
      simp only [Bool.and_eq_true] at h2
      obtain ⟨c, hc⟩ := Option.isSome_iff_exists.mp h2.1
      simp only [processLines, step1_category s hd c hc,
        step1_category initState hd c hc]
  rw [key]

/-- Witness for C5 on two concrete single-category documents. -/
theorem C5_concat_isolates_witness :
    isSingleCatDoc "FISH PRODUCTS\nBangus\nLarge   250.00" = true ∧
    isSingleCatDoc "SPICES\nGarlic Native   120.00" = true ∧
    (parse_text_to_json ("FISH PRODUCTS\nBangus\nLarge   250.00" ++ "\n" ++
        "SPICES\nGarlic Native   120.00")).price_data =
      (parse_text_to_json "FISH PRODUCTS\nBangus\nLarge   250.00").price_data
        ++ (parse_text_to_json "SPICES\nGarlic Native   120.00").price_data :=
  ⟨by decide, by decide,
   C5_concat_isolates "FISH PRODUCTS\nBangus\nLarge   250.00"
     "SPICES\nGarlic Native   120.00" (by decide) (by decide)⟩

/-! ### Not-applicable price tokens -/

/-- With an `n/a` price token the row is dropped entirely: every content
branch of `closeRow` ends with an absent final price. -/
theorem closeRow_na (cat : String) (cbuf sbuf : List String)
    (c0 : List Char) :
    closeRow cat cbuf sbuf c0 ("n/a".toList) = none := by
  unfold closeRow
  split
  · rfl
  · rfl

/-- C6 — A price-terminated line whose trailing price token is the
not-applicable placeholder `n/a` never yields an emitted record, from any
parser state. -/
theorem C6_na_never_emits (s : PState) (l : String)
    (content tok : List Char)
    (hp : priceSplit (pyStripL l.toList) = some (content, tok))
    (hna : tok = "n/a".toList) :
    (step1 s l).2 = [] := by
  rcases step1_cases s l with hc | ⟨bt, hp', hc⟩
  · exact hc
  · rw [hp] at hp'
    obtain rfl := Option.some.inj hp'
    rw [hc, hna, closeRow_na]
    rfl

/-- Witness for C6 at a concrete state and line. -/
theorem C6_na_never_emits_witness :
    priceSplit (pyStripL ("Bangus  n/a" : String).toList) =
      some ("Bangus".toList, "n/a".toList) ∧
    (step1 (PState.mk "FISH PRODUCTS" ["Bangus"] []) "Bangus  n/a").2 = [] :=
  ⟨by decide,
   C6_na_never_emits (PState.mk "FISH PRODUCTS" ["Bangus"] []) "Bangus  n/a"
     "Bangus".toList "n/a".toList (by decide) rfl⟩

/-! ### Pagination-marker lines -/

/-- C2 (amended) — A line matching the pagination pattern that contains no
category header is discarded unchanged: no record is emitted, no content
is buffered, and the buffers are left exactly as they were (they are NOT
reset; the reset branch for price-carrying pagination lines at
lines 567–574 is unreachable because line 541 skips such lines first). -/
theorem C2_page_line_skipped (s : PState) (l : String)
    (hpage : reTest pageRe (pyStripL l.toList) = true)
    (hcat : firstCategory (pyStripL l.toList) = none) :
    step1 s l = (s, []) := by
  have hne : pyStripL l.data ≠ [] := by
    intro he
    rw [show l.toList = l.data from rfl, he] at hpage
    exact absurd hpage (by decide)
  unfold step1
  unfold_let
  rw [if_neg (by simp [List.isEmpty_iff, hne]), hcat]
  rw [if_pos hpage]

/-- Witness for the amended C2 at a concrete mid-buffer state. -/
theorem C2_page_line_skipped_witness :
    reTest pageRe (pyStripL ("Page 2 of 5" : String).toList) = true ∧
    firstCategory (pyStripL ("Page 2 of 5" : String).toList) = none ∧
    step1 (PState.mk "FISH PRODUCTS" ["Bangus"] []) "Page 2 of 5" =
      (PState.mk "FISH PRODUCTS" ["Bangus"] [], []) :=
  ⟨by decide, by decide,
   C2_page_line_skipped (PState.mk "FISH PRODUCTS" ["Bangus"] [])
     "Page 2 of 5" (by decide) (by decide)⟩

/-- C2 counterexample — after the lines `FISH PRODUCTS`, `Bangus`,
`Page 2 of 5`, the third line matches the pagination pattern yet the
commodity buffer still holds `Bangus`: the buffers are not reset to empty
when a pagination line is processed. -/
theorem C2_counterexample :
    reTest pageRe (pyStripL ("Page 2 of 5" : String).toList) = true ∧
    (processLines initState ["FISH PRODUCTS", "Bangus", "Page 2 of 5"]).1 =
      PState.mk "FISH PRODUCTS" ["Bangus"] [] ∧
    (["Bangus"] : List String) ≠ [] := by
  refine ⟨by decide, by decide, by decide⟩

/-! ### End-to-end scenario 1 -/

/-- C1 counterexample — on the three-line input the parser emits one
record whose commodity is `Bangus`, not `Bangus Large`: the price line's
remainder `Large` lands in the specification text, so the normalizer only
sees `Bangus` and its `LARGE` test fails.  (`25000` is 250.00 in
hundredths.) -/
theorem C1_counterexample :
    parse_text_to_json "FISH PRODUCTS\nBangus\nLarge                      250.00" =
      ParseResult.mk []
        [PriceRow.mk "FISH PRODUCTS" "Bangus" (some "Local") "kg"
          (some 25000)] ∧
    ("Bangus" : String) ≠ "Bangus Large" := by
  refine ⟨by decide, by decide⟩

/-- C1 (amended) — the scenario emits exactly one record
`{category: FISH PRODUCTS, commodity: Bangus, origin: Local, unit: kg,
price: 250.00}` (price in hundredths). -/
theorem C1_amended_scenario :
    parse_text_to_json "FISH PRODUCTS\nBangus\nLarge                      250.00" =
      ParseResult.mk []
        [PriceRow.mk "FISH PRODUCTS" "Bangus" (some "Local") "kg"
          (some 25000)] := by
  decide

/-! ### Cooking-oil brand priority -/

theorem firstSomeD_single {α : Type} (o : Option α) (d : α) :
    firstSomeD [o] d = o.getD d := by cases o <;> rfl

/-- Under the concrete other-basic-commodities category only the basic
section (with generic fallback) is consulted. -/
theorem normalize_basic (t : String) :
    normalize_commodity_name t "OTHER BASIC COMMODITIES" =
      (basicRules (upperSan t)).getD (fallbackClean (sanitizeL t.data)) := by
  unfold normalize_commodity_name
  simp +decide [optIf, firstSomeD]
  exact firstSomeD_single _ _

/-- C3 counterexample — a cooking-oil text containing both the generic
`COCONUT` keyword and the named brand `MINOLA` is classified as Coconut:
the generic coconut keyword is tested before all named brands, so the
named brand does not win. -/
theorem C3_counterexample :
    normalize_commodity_name "Cooking Oil Coconut Minola"
        "OTHER BASIC COMMODITIES" = ("Cooking Oil (Coconut)", none) ∧
    ("Cooking Oil (Coconut)" : String) ≠ "Cooking Oil (Minola)" := by
  refine ⟨by decide, by decide⟩

/-- C3 (amended) — the complete fixed brand-priority order of the
cooking-oil classifier, for every text containing `COOKING OIL` under the
other-basic-commodities category: `COCONUT` is tested before all named
brands and wins over them whenever it occurs; in its absence the named
brand `MINOLA` wins (in particular over the generic `PALM OLEIN`); next
`SPRING` wins (again over `PALM OLEIN`); and only then does
`JOLLY`/`PALM OLEIN` classify as the Palm Olein (Jolly) product. -/
theorem C3_brand_priority (t : String)
    (hoil : hasSub "COOKING OIL" (upperSan t) = true) :
    (hasSub "COCONUT" (upperSan t) = true →
      (normalize_commodity_name t "OTHER BASIC COMMODITIES").1 =
        "Cooking Oil (Coconut)") ∧
    (hasSub "COCONUT" (upperSan t) = false →
      hasSub "MINOLA" (upperSan t) = true →
      (normalize_commodity_name t "OTHER BASIC COMMODITIES").1 =
        "Cooking Oil (Minola)") ∧
    (hasSub "COCONUT" (upperSan t) = false →
      hasSub "MINOLA" (upperSan t) = false →
      hasSub "SPRING" (upperSan t) = true →
      (normalize_commodity_name t "OTHER BASIC COMMODITIES").1 =
        "Cooking Oil (Spring)") ∧
    (hasSub "COCONUT" (upperSan t) = false →
      hasSub "MINOLA" (upperSan t) = false →
      hasSub "SPRING" (upperSan t) = false →
      (hasSub "JOLLY" (upperSan t) || hasSub "PALM OLEIN" (upperSan t))
        = true →
      (normalize_commodity_name t "OTHER BASIC COMMODITIES").1 =
        "Cooking Oil (Palm Olein (Jolly))") := by
  refine ⟨?_, ?_, ?_, ?_⟩
  · intro hc
    rw [normalize_basic]
    have hb : basicRules (upperSan t) =
        some ("Cooking Oil (Coconut)", none) := by
      unfold basicRules upperSan at *
      rw [if_pos hoil, if_pos hc]
      rfl
    rw [hb]
    rfl
  · intro hc hm
    rw [normalize_basic]
    have hb : basicRules (upperSan t) =
        some ("Cooking Oil (Minola)", none) := by
      unfold basicRules upperSan at *
      rw [if_pos hoil, if_neg (by simp [hc]), if_pos hm]
      rfl
    rw [hb]
    rfl
  · intro hc hm hs
    rw [normalize_basic]
    have hb : basicRules (upperSan t) =
        some ("Cooking Oil (Spring)", none) := by
      unfold basicRules upperSan at *
      rw [if_pos hoil, if_neg (by simp [hc]), if_neg (by simp [hm]),
        if_pos hs]
      rfl
    rw [hb]
    rfl
  · intro hc hm hs hjp
    rw [normalize_basic]
    have hb : basicRules (upperSan t) =
        some ("Cooking Oil (Palm Olein (Jolly))", none) := by
      unfold basicRules upperSan at *
      rw [if_pos hoil, if_neg (by simp [hc]), if_neg (by simp [hm]),
        if_neg (by simp [hs]), if_pos hjp]
      rfl
    rw [hb]
    rfl

/-- Witness for the amended C3: a text naming both the generic palm-olein
oil type and the Spring brand resolves to the Spring brand. -/
theorem C3_brand_priority_witness :
    hasSub "COOKING OIL" (upperSan "Cooking Oil Palm Olein Spring") = true ∧
    hasSub "COCONUT" (upperSan "Cooking Oil Palm Olein Spring") = false ∧
    hasSub "MINOLA" (upperSan "Cooking Oil Palm Olein Spring") = false ∧
    hasSub "SPRING" (upperSan "Cooking Oil Palm Olein Spring") = true ∧
    (normalize_commodity_name "Cooking Oil Palm Olein Spring"
      "OTHER BASIC COMMODITIES").1 = "Cooking Oil (Spring)" :=
  ⟨by decide, by decide, by decide, by decide,
   (C3_brand_priority "Cooking Oil Palm Olein Spring" (by decide)).2.2.1
     (by decide) (by decide) (by decide)⟩

/-! ### Beef rib-eye precedence -/

/-- Under the concrete beef category only the beef section is consulted. -/
theorem normalize_beef (t : String) :
    normalize_commodity_name t "BEEF MEAT PRODUCTS" =
      beefRules (sanitizeL t.data) (upperSan t) := by
  unfold normalize_commodity_name
  simp +decide [optIf, firstSomeD]
  rfl

/-- C7 counterexample — the text `Short Rib Eye` contains both `rib eye`
and `rib`, yet normalizes to `Beef Short Ribs`, because the `SHORT RIB`
rule is tested before the `RIB EYE` rule. -/
theorem C7_counterexample :
    normalize_commodity_name "Short Rib Eye" "BEEF MEAT PRODUCTS" =
      ("Beef Short Ribs", none) ∧
    ("Beef Short Ribs" : String) ≠ "Beef Rib Eye" := by
  refine ⟨by decide, by decide⟩

/-- C7 (amended) — under the beef category a text containing `RIB EYE`
normalizes to `Beef Rib Eye` (never the generic `Beef Ribs`), provided
none of the four more specific earlier rules fires (tenderloin,
strip+loin, sirloin, short rib). -/
theorem C7_rib_eye_precedence (t : String)
    (h1 : hasSub "RIB EYE" (upperSan t) = true)
    (h2 : hasSub "TENDERLOIN" (upperSan t) = false)
    (h3 : (hasSub "STRIP" (upperSan t) && hasSub "LOIN" (upperSan t)) = false)
    (h4 : hasSub "SIRLOIN" (upperSan t) = false)
    (h5 : hasSub "SHORT RIB" (upperSan t) = false) :
    (normalize_commodity_name t "BEEF MEAT PRODUCTS").1 = "Beef Rib Eye" := by
  rw [normalize_beef]
  unfold beefRules upperSan at *
  rw [if_neg (by simp [h2]), if_neg (by simp [h3]), if_neg (by simp [h4]),
    if_neg (by simp [h5]), if_pos h1]

/-- Witness for the amended C7. -/
theorem C7_rib_eye_precedence_witness :
    hasSub "RIB EYE" (upperSan "Rib Eye") = true ∧
    (normalize_commodity_name "Rib Eye" "BEEF MEAT PRODUCTS").1 =
      "Beef Rib Eye" :=
  ⟨by decide,
   C7_rib_eye_precedence "Rib Eye" (by decide) (by decide) (by decide)
     (by decide) (by decide)⟩

/-! ### The covered-markets extractor -/

theorem dedupRec_cons (x : String) (xs : List String) :
    dedupRec (x :: xs) = x :: dedupRec (xs.filter (fun y => y ≠ x)) := by
  rw [dedupRec.eq_def]

theorem filter_map_eq_filterMap (l : List (List Char)) :
    ((l.filter (fun m => 3 < m.length)).map
        (fun m => (⟨sanitizeFragment m⟩ : String))) =
      l.filterMap (fun m => if 3 < m.length
        then some ((⟨sanitizeFragment m⟩ : String)) else none) := by
  induction l with
  | nil => rfl
  | cons x xs ih =>
    by_cases hx : 3 < x.length
    · simp [hx, ih]
    · simp [hx, ih]

theorem foldl_dedupe (l acc : List String) :
    l.foldl (fun acc m => if m ∈ acc then acc else acc ++ [m]) acc =
      acc ++ dedupRec (l.filter (fun y => !(y ∈ acc : Bool))) := by
  induction l generalizing acc with
  | nil => simp [dedupRec]
  | cons m l ih =>
    by_cases hm : m ∈ acc
    · rw [List.foldl_cons, if_pos hm, ih]
      congr 2
      rw [List.filter_cons]
      simp [hm]
    · rw [List.foldl_cons, if_neg hm, ih]
      have hfc : List.filter (fun y => !decide (y ∈ acc)) (m :: l) =
          m :: List.filter (fun y => !decide (y ∈ acc)) l := by
        rw [List.filter_cons]
        simp [hm]
      rw [hfc, dedupRec_cons, List.filter_filter]
      simp only [List.append_assoc, List.singleton_append]
      congr 2
      congr 1
      apply List.filter_congr
      intro y hy
      by_cases hya : y ∈ acc <;> by_cases hym : y = m <;>
        simp [List.mem_append, hya, hym]

/-- `dict.fromkeys` deduplication equals first-seen-order recursive
deduplication. -/
theorem dedupeFirst_eq_dedupRec (l : List String) :
    dedupeFirst l = dedupRec l := by
  unfold dedupeFirst
  rw [foldl_dedupe]
  simp

/-- C8 counterexample — on this input the extractor keeps the fragment
`AB `, whose raw length is 4, although its sanitized form `AB` is shorter
than 4 characters: the length filter runs before sanitization, not after
it as the claim states. -/
theorem C8_counterexample :
    (parse_text_to_json "Covered markets: 1. AB  Page 1 of 2").covered_markets
      = ["AB"] ∧ ("AB" : String).length < 4 := by
  refine ⟨by decide, by decide⟩

/-- C8 (amended) — the extractor splits the block on numeric list markers,
discards raw fragments of length at most 3 (before sanitization),
sanitizes each survivor, removes duplicates keeping first-seen order, and
returns the empty sequence when no covered-markets block exists. -/
theorem C8_market_extractor (raw : String) :
    (parse_text_to_json raw).covered_markets = marketsAmendedSpec raw := by
  unfold parse_text_to_json marketsAmendedSpec covered_markets_of
  simp only
  cases marketScan raw.toList with
  | none => rfl
  | some block =>
    simp only
    rw [filter_map_eq_filterMap, dedupeFirst_eq_dedupRec]

end DPI
